import Mathlib

/-!
Verification of the safe-markup construction and validation engine of the
telluride repository (src/api/markdown/{string,validate,macros}.rs).

Strings are modelled as lists of UTF-8 byte values (`List Nat`), because the
source measures every length in bytes (`String::len`, `TELEGRAM_MAX_MESSAGE_LENGTH`)
and the validator walks `as_bytes()`.  All definitions are direct translations
of the Rust source unless their doc comment says otherwise.
-/

namespace Telluride

/-- UTF-8 bytes of an ASCII string literal (every character below 0x80 is its
own byte, and all literals passed to this helper are ASCII). -/
def bytes (s : String) : List Nat := s.data.map Char.toNat

/-- `pub struct MarkdownString(String, bool)` from src/api/markdown/string.rs:
the payload (field `.0`) and the truncated flag (field `.1`). -/
structure MarkdownString where
  payload : List Nat
  truncated : Bool
deriving DecidableEq

/-- `const TELEGRAM_MAX_MESSAGE_LENGTH: usize = 4096` from string.rs. -/
def TELEGRAM_MAX_MESSAGE_LENGTH : Nat := 4096

/-- `const TRUNCATION_MARKER: &str = "\\.\\.\\."` from string.rs: the six bytes
backslash, dot, backslash, dot, backslash, dot. -/
def TRUNCATION_MARKER : List Nat := bytes ("\\.\\.\\.")

/-- `MarkdownString::push` from string.rs.  The local `truncation_marker` is
`markdown_string!(TRUNCATION_MARKER)`, whose payload is `TRUNCATION_MARKER`
itself (it is 6 bytes long, far below the ceiling). -/
def MarkdownString.push (self other : MarkdownString) : MarkdownString :=
  if self.truncated then self
  else
    if self.payload.length + other.payload.length + TRUNCATION_MARKER.length >
        TELEGRAM_MAX_MESSAGE_LENGTH then
      if self.payload.length + TRUNCATION_MARKER.length ≤ TELEGRAM_MAX_MESSAGE_LENGTH then
        { payload := self.payload ++ TRUNCATION_MARKER, truncated := true }
      else
        { payload := self.payload, truncated := true }
    else
      { payload := self.payload ++ other.payload, truncated := self.truncated }

/-- Modelled from the spec: the byte values escaped by the external
`teloxide::utils::markdown::escape` (not part of this repository).  Per the
spec these are the reserved, toggle, code-fence, link and url characters
together with the backslash itself ("backslash is itself escaped"). -/
def mdSpecialByte (b : Nat) : Bool :=
  b ∈ [95, 42, 91, 93, 40, 41, 126, 96, 62, 35, 43, 45, 61, 124, 123, 125, 46, 33, 92]

/-- Modelled from the spec: `teloxide::utils::markdown::escape` (external to
this repository).  Every special byte is prefixed with a backslash; all other
bytes (including UTF-8 continuation bytes, which are ≥ 0x80 and never special)
pass through unchanged. -/
def teloxideEscape : List Nat → List Nat
  | [] => []
  | b :: rest => (if mdSpecialByte b then [92, b] else [b]) ++ teloxideEscape rest

/-- Rust's `str::is_char_boundary`: position 0 is always a boundary, a position
inside the string is a boundary unless the byte there is a UTF-8 continuation
byte (0x80 ≤ b < 0xC0), and the only boundary at or past the end is the length
itself.  `MarkdownString::from_validated_string` slices `s[..3996]`, which
panics when 3996 is not a boundary. -/
def isCharBoundary (bs : List Nat) (n : Nat) : Bool :=
  if n = 0 then true
  else
    match bs.get? n with
    | none => n = bs.length
    | some b => !(128 ≤ b && b < 192)

/-- `MarkdownString::from_validated_string` from string.rs, with a fuel
parameter making the source's mutual recursion with `MarkdownString::escape`
total (`escape` feeds its escaped text back into `from_validated_string`, and
the oversize branch of `from_validated_string` escapes a 3996-byte prefix —
i.e. it calls `escape`, inlined here).  `none` models a panic (the slice
`s[..3996]` at a non-boundary) or exhaustion of the call stack. -/
def fromValidatedStringFuel : Nat → List Nat → Option MarkdownString
  | 0, _ => none
  | fuel + 1, s =>
    if s.length > TELEGRAM_MAX_MESSAGE_LENGTH then
      if isCharBoundary s (TELEGRAM_MAX_MESSAGE_LENGTH - 100) then
        -- escape(truncated_str) = default.push(from_validated_string(teloxide_escape(...)))
        match fromValidatedStringFuel fuel
            (teloxideEscape (s.take (TELEGRAM_MAX_MESSAGE_LENGTH - 100))) with
        | some inner =>
          let e := MarkdownString.push { payload := [], truncated := false } inner
          some { payload := (e.push { payload := TRUNCATION_MARKER, truncated := false }).payload,
                 truncated := true }
        | none => none
      else none
    else some { payload := s, truncated := false }

/-- `MarkdownString::escape` from string.rs: escape the input with the external
escaper, then push the result of `from_validated_string` onto an empty
`MarkdownString`. -/
def escapeFuel (fuel : Nat) (input : List Nat) : Option MarkdownString :=
  (fromValidatedStringFuel fuel (teloxideEscape input)).map
    (fun m => MarkdownString.push { payload := [], truncated := false } m)

/-- Decidable equality for `Except`, so that concrete validator runs can be
settled by `decide`. -/
instance {ε α : Type} [DecidableEq ε] [DecidableEq α] : DecidableEq (Except ε α) := fun x y =>
  match x, y with
  | .ok a, .ok b =>
    if h : a = b then isTrue (by rw [h]) else isFalse (fun he => h (by injection he))
  | .error a, .error b =>
    if h : a = b then isTrue (by rw [h]) else isFalse (fun he => h (by injection he))
  | .ok _, .error _ => isFalse (fun he => by injection he)
  | .error _, .ok _ => isFalse (fun he => by injection he)

/-- The structured diagnoses of `validate_markdownv2_format` from
src/api/markdown/validate.rs.  Each constructor corresponds to one `panic!` or
`assert!` message of the source; `unescapedReserved`/`unbalanced` carry the
byte value of the character named in the message. -/
inductive VErr where
  | unescapedReserved (c : Nat)
  | unmatchedBracket
  | unbalanced (c : Nat)
  | unbalancedBrackets
  | unbalancedParens
  | unclosedCode
  | unclosedPre
deriving DecidableEq

/-- The local mutable state of `validate_markdownv2_format`.  The u8 counters
are kept already reduced modulo 256 (`wrapping_add`). -/
structure VState where
  asterisk : Nat
  underscore : Nat
  backtick : Nat
  squareBracket : Nat
  paren : Nat
  tilde : Nat
  pipe : Nat
  inCode : Bool
  inPre : Bool
  prevChar : Nat
  prevWasEscapingBackslash : Bool
deriving DecidableEq

/-- Initial validator state: all counters 0, contexts closed, `prev_char = 0u8`. -/
def initVState : VState :=
  { asterisk := 0, underscore := 0, backtick := 0, squareBracket := 0, paren := 0,
    tilde := 0, pipe := 0, inCode := false, inPre := false, prevChar := 0,
    prevWasEscapingBackslash := false }

/-- `is_escaped = prev_char == b'\\' && prev_was_escaping_backslash`. -/
def isEscaped (st : VState) : Bool :=
  st.prevChar = 92 && st.prevWasEscapingBackslash

/-- The unconditional end-of-iteration updates `prev_char = current_char` and
`prev_was_escaping_backslash = (current_char == b'\\' && !is_escaped)`; the
caller passes the already-computed liveness bit. -/
def setPrev (st : VState) (c : Nat) (live : Bool) : VState :=
  { st with prevChar := c, prevWasEscapingBackslash := live }

/-- The triple-backtick lookahead `i + 2 < len && bytes[i+1] == b'(backtick)'
&& bytes[i+2] == b'(backtick)'`: at least two more bytes follow the current
one and both are backticks. -/
def tripleAhead (rest : List Nat) : Bool :=
  match rest with
  | 96 :: 96 :: _ => true
  | _ => false

/-- One iteration of the scan loop of `validate_markdownv2_format`, acting on
the current byte `c` with the remaining bytes `rest` available for lookahead.
Errors model the mid-scan `panic!`/`assert!` calls. -/
def vstep (st : VState) (c : Nat) (rest : List Nat) : Except VErr VState :=
  if isEscaped st then .ok (setPrev st c false)
  else
    match c with
    | 42 => .ok (setPrev { st with asterisk := (st.asterisk + 1) % 256 } 42 false)
    | 95 => .ok (setPrev { st with underscore := (st.underscore + 1) % 256 } 95 false)
    | 126 => .ok (setPrev { st with tilde := (st.tilde + 1) % 256 } 126 false)
    | 124 => .ok (setPrev { st with pipe := (st.pipe + 1) % 256 } 124 false)
    | 96 =>
      if tripleAhead rest then
        .ok (setPrev { st with backtick := (st.backtick + 1) % 256, inPre := !st.inPre } 96 false)
      else
        .ok (setPrev { st with backtick := (st.backtick + 1) % 256, inCode := !st.inCode } 96 false)
    | 91 => .ok (setPrev { st with squareBracket := (st.squareBracket + 1) % 256 } 91 false)
    | 93 =>
      if st.squareBracket = 0 then .error .unmatchedBracket
      else .ok (setPrev { st with squareBracket := st.squareBracket - 1 } 93 false)
    | 40 =>
      .ok (setPrev (if st.prevChar = 93 then { st with paren := (st.paren + 1) % 256 } else st)
        40 false)
    | 41 =>
      .ok (setPrev (if 0 < st.paren then { st with paren := st.paren - 1 } else st) 41 false)
    | 33 =>
      if st.inCode = false ∧ st.inPre = false then .error (.unescapedReserved 33)
      else .ok (setPrev st 33 false)
    | 46 =>
      if st.inCode = false ∧ st.inPre = false then .error (.unescapedReserved 46)
      else .ok (setPrev st 46 false)
    | 45 =>
      if st.inCode = false ∧ st.inPre = false then .error (.unescapedReserved 45)
      else .ok (setPrev st 45 false)
    | 43 =>
      if st.inCode = false ∧ st.inPre = false then .error (.unescapedReserved 43)
      else .ok (setPrev st 43 false)
    | 61 =>
      if st.inCode = false ∧ st.inPre = false then .error (.unescapedReserved 61)
      else .ok (setPrev st 61 false)
    | 62 =>
      if st.inCode = false ∧ st.inPre = false then .error (.unescapedReserved 62)
      else .ok (setPrev st 62 false)
    | 35 =>
      if st.inCode = false ∧ st.inPre = false then .error (.unescapedReserved 35)
      else .ok (setPrev st 35 false)
    | 123 =>
      if st.inCode = false ∧ st.inPre = false ∧ ¬(rest.head? = some 125) then
        .error (.unescapedReserved 123)
      else .ok (setPrev st 123 false)
    | 125 =>
      if st.inCode = false ∧ st.inPre = false ∧ ¬(st.prevChar = 123) then
        .error (.unescapedReserved 125)
      else .ok (setPrev st 125 false)
    | 92 => .ok (setPrev st 92 true)
    | c' => .ok (setPrev st c' false)

/-- The scan loop: process each byte in turn, stopping at the first error. -/
def vrun : VState → List Nat → Except VErr VState
  | st, [] => .ok st
  | st, c :: rest =>
    match vstep st c rest with
    | .ok st' => vrun st' rest
    | .error e => .error e

/-- The end-of-scan `assert!` block of `validate_markdownv2_format`, in source
order: toggle parities, bracket and paren counters, open contexts. -/
def vfinal (st : VState) : Except VErr Unit :=
  if st.asterisk % 2 ≠ 0 then .error (.unbalanced 42)
  else if st.underscore % 2 ≠ 0 then .error (.unbalanced 95)
  else if st.backtick % 2 ≠ 0 then .error (.unbalanced 96)
  else if st.tilde % 2 ≠ 0 then .error (.unbalanced 126)
  else if st.pipe % 2 ≠ 0 then .error (.unbalanced 124)
  else if st.squareBracket ≠ 0 then .error .unbalancedBrackets
  else if st.paren ≠ 0 then .error .unbalancedParens
  else if st.inCode then .error .unclosedCode
  else if st.inPre then .error .unclosedPre
  else .ok ()

/-- `validate_markdownv2_format` from src/api/markdown/validate.rs: scan the
bytes, then run the end-of-scan checks. -/
def validateFmt (bs : List Nat) : Except VErr Unit :=
  match vrun initVState bs with
  | .ok st => vfinal st
  | .error e => .error e

/-- The structural-reserved byte values of the spec's invariant I1:
`! . - + = > # x7b x7d`. -/
def i1Reserved (b : Nat) : Bool :=
  b ∈ [33, 46, 45, 43, 61, 62, 35, 123, 125]

/-- Scan underlying the spec's invariant I1, resolving escapes and code
contexts exactly as the validator does (same one-step look-back and the same
triple-backtick lookahead), and accepting the placeholder pair as the
validator does.  Returns `false` as soon as a structural-reserved byte occurs
unescaped outside both code contexts (and not as part of a placeholder pair). -/
def i1Go : Bool → Bool → Nat → Bool → List Nat → Bool
  | _, _, _, _, [] => true
  | inCode, inPre, prev, prevLive, c :: rest =>
    if prev = 92 && prevLive then i1Go inCode inPre c false rest
    else if c = 96 then
      if tripleAhead rest then i1Go inCode (!inPre) 96 false rest
      else i1Go (!inCode) inPre 96 false rest
    else if i1Reserved c ∧ inCode = false ∧ inPre = false ∧
        ¬(c = 123 ∧ rest.head? = some 125) ∧ ¬(c = 125 ∧ prev = 123) then false
    else i1Go inCode inPre c (c = 92) rest

/-- Invariant I1 of the spec, as a decidable predicate on payload bytes:
no unescaped structural-reserved byte outside a code context. -/
def i1Ok (bs : List Nat) : Bool := i1Go false false 0 false bs

/-- Locate the first occurrence of the placeholder marker (bytes x7b x7d,
i.e. `result.find` of the marker in markdown_format!): returns the bytes
before the marker and the bytes after it. -/
def splitAtMarker : List Nat → Option (List Nat × List Nat)
  | [] => none
  | c :: rest =>
    if c = 123 ∧ rest.head? = some 125 then some ([], rest.tail)
    else
      match splitAtMarker rest with
      | some (p, s) => some (c :: p, s)
      | none => none

/-- The substitution loop of `markdown_format!` (src/api/markdown/macros.rs
lines 125-133): for each rendered argument in order, find the first
placeholder marker in the evolving result and splice the argument over it;
arguments with no marker left are skipped. -/
def substituteLoop : List Nat → List (List Nat) → List Nat
  | t, [] => t
  | t, a :: rest =>
    match splitAtMarker t with
    | some (p, s) => substituteLoop (p ++ a ++ s) rest
    | none => substituteLoop t rest

/-- Reference rendering of the claim's substitution contract, written from the
spec's words: the Nth placeholder marker of the template receives the Nth
binding; markers beyond the bindings stay unfilled; extra bindings are
ignored. -/
def fillMarkersSpec : List Nat → List (List Nat) → List Nat
  | t, [] => t
  | t, a :: rest =>
    match splitAtMarker t with
    | some (p, s) => p ++ a ++ fillMarkersSpec s rest
    | none => t

/-- A payload of 4091 letters `a` (refutation input for C6 and C7). -/
def longA : List Nat := List.replicate 4091 97

/-- The input refuting C10: 3995 letters `a`, then the two UTF-8 bytes of a
two-byte character, then 100 more letters `a` — 4097 bytes in total, with
byte position 3996 falling on the continuation byte. -/
def c10Input : List Nat := List.replicate 3995 97 ++ 195 :: 169 :: List.replicate 100 97

/-- The truncation marker is six bytes long. -/
theorem TRUNCATION_MARKER_length : TRUNCATION_MARKER.length = 6 := by decide

/-- C2: `push` on a non-truncated receiver of payload length `L` appends the
addition unchanged when `L + A + 6 ≤ 4096`, else appends only the truncation
marker and sets the flag when `L + 6 ≤ 4096`, else only sets the flag; a
truncated receiver is left entirely unchanged. -/
theorem push_matches_length_guard (s o : MarkdownString) :
    s.push o =
      if s.truncated then s
      else if s.payload.length + o.payload.length + 6 ≤ 4096 then
        { payload := s.payload ++ o.payload, truncated := false }
      else if s.payload.length + 6 ≤ 4096 then
        { payload := s.payload ++ TRUNCATION_MARKER, truncated := true }
      else { payload := s.payload, truncated := true } := by
  rcases s with ⟨p, tr⟩
  cases tr <;>
    simp only [MarkdownString.push, TRUNCATION_MARKER_length, TELEGRAM_MAX_MESSAGE_LENGTH,
      if_true, if_false, Bool.false_eq_true, Bool.true_eq_false] <;>
    split_ifs <;> first | rfl | omega

/-- Witness for `push_matches_length_guard` at two short payloads. -/
theorem push_matches_length_guard_witness :
    MarkdownString.push { payload := bytes ("ab"), truncated := false }
        { payload := bytes ("cd"), truncated := false } =
      { payload := bytes ("abcd"), truncated := false } := by
  rw [push_matches_length_guard]
  decide

/-- C3: outside both code contexts, an unescaped reserved byte makes the
current scan step fail immediately, naming the byte; the brace exemptions are
exactly "next byte closes the pair" for the opening brace and "previous byte
opened the pair" for the closing brace; and the spec's three examples behave
as stated. -/
theorem unescaped_reserved_fails_immediately (st : VState) (rest : List Nat) (c : Nat)
    (hesc : isEscaped st = false) (hic : st.inCode = false) (hip : st.inPre = false) :
    (c ∈ ([33, 46, 45, 43, 61, 62, 35] : List Nat) →
      vstep st c rest = .error (.unescapedReserved c)) ∧
    (¬(rest.head? = some 125) → vstep st 123 rest = .error (.unescapedReserved 123)) ∧
    (¬(st.prevChar = 123) → vstep st 125 rest = .error (.unescapedReserved 125)) ∧
    validateFmt (bytes ("Hello!")) = .error (.unescapedReserved 33) ∧
    validateFmt (bytes ("Hello\\!")) = .ok () ∧
    validateFmt (bytes ("Use \x7b\x7d here")) = .ok () := by
  refine ⟨?_, ?_, ?_, by decide, by decide, by decide⟩
  · intro hc
    fin_cases hc <;> simp [vstep, hesc, hic, hip]
  · intro hh
    simp [vstep, hesc, hic, hip, hh]
  · intro hh
    simp [vstep, hesc, hic, hip, hh]

/-- Witness for `unescaped_reserved_fails_immediately` at the initial state
and the byte of the exclamation mark. -/
theorem unescaped_reserved_fails_immediately_witness :
    vstep initVState 33 [] = .error (.unescapedReserved 33) :=
  (unescaped_reserved_fails_immediately initVState [] 33 rfl rfl rfl).1 (by decide)

/-- C9: an unescaped backtick whose two following bytes are both backticks
flips the fenced-block context (and leaves the inline-code context alone);
any other unescaped backtick flips the inline-code context (and leaves the
fenced-block context alone).  Both increment the backtick parity counter. -/
theorem backtick_toggles_contexts (st : VState) (rest : List Nat)
    (hesc : isEscaped st = false) :
    vstep st 96 rest =
      .ok (setPrev
        { st with
            backtick := (st.backtick + 1) % 256,
            inPre := if tripleAhead rest then !st.inPre else st.inPre,
            inCode := if tripleAhead rest then st.inCode else !st.inCode }
        96 false) := by
  cases htr : tripleAhead rest <;> simp [vstep, hesc, htr]

/-- Witness for `backtick_toggles_contexts`: a fence opener at the initial state. -/
theorem backtick_toggles_contexts_witness :
    vstep initVState 96 [96, 96] =
      .ok (setPrev { initVState with backtick := 1, inPre := true } 96 false) := by
  have h := backtick_toggles_contexts initVState [96, 96] rfl
  simpa using h

/-- C8: an unescaped closing bracket fails immediately when the bracket
counter is zero and decrements it otherwise; an unescaped opening paren is
counted only when the previous byte is a closing bracket; an unescaped
closing paren decrements the paren counter only when it is positive and is
otherwise ignored; and the end-of-scan check requires both cumulative
counters to be zero. -/
theorem bracket_paren_discipline (st : VState) (rest : List Nat)
    (hesc : isEscaped st = false) :
    (vstep st 93 rest =
      if st.squareBracket = 0 then .error .unmatchedBracket
      else .ok (setPrev { st with squareBracket := st.squareBracket - 1 } 93 false)) ∧
    (vstep st 40 rest =
      .ok (setPrev (if st.prevChar = 93 then { st with paren := (st.paren + 1) % 256 } else st)
        40 false)) ∧
    (vstep st 41 rest =
      .ok (setPrev (if 0 < st.paren then { st with paren := st.paren - 1 } else st) 41 false)) ∧
    (∀ st' : VState, vfinal st' = .ok () → st'.squareBracket = 0 ∧ st'.paren = 0) := by
  refine ⟨by simp [vstep, hesc], by simp [vstep, hesc], by simp [vstep, hesc], ?_⟩
  intro st' hok
  unfold vfinal at hok
  split_ifs at hok <;> simp_all

/-- Witness for `bracket_paren_discipline`: an unmatched closing bracket at
the initial state fails immediately. -/
theorem bracket_paren_discipline_witness :
    vstep initVState 93 [] = .error .unmatchedBracket := by
  have h := (bracket_paren_discipline initVState [] rfl).1
  simpa using h

/-- C4: for a template whose scan reaches the end without a mid-scan failure
(final state `st`), validation succeeds if and only if every toggle counter is
even, both the bracket and the paren counter are zero, and both code contexts
are closed (the counters record the unescaped occurrences modulo 256, so their
parity is the parity of the number of unescaped occurrences); and the spec's
four examples behave as stated, the unmatched asterisk being reported as the
asterisk-parity failure. -/
theorem end_of_scan_balance (bs : List Nat) (st : VState)
    (hrun : vrun initVState bs = .ok st) :
    (validateFmt bs = .ok () ↔
      (st.asterisk % 2 = 0 ∧ st.underscore % 2 = 0 ∧ st.backtick % 2 = 0 ∧
        st.tilde % 2 = 0 ∧ st.pipe % 2 = 0 ∧ st.squareBracket = 0 ∧ st.paren = 0 ∧
        st.inCode = false ∧ st.inPre = false)) ∧
    validateFmt (bytes ("*\x7b\x7d*")) = .ok () ∧
    validateFmt (bytes ("_\x7b\x7d_")) = .ok () ∧
    validateFmt (bytes ("`\x7b\x7d`")) = .ok () ∧
    validateFmt (bytes ("*unmatched")) = .error (.unbalanced 42) := by
  refine ⟨?_, by decide, by decide, by decide, by decide⟩
  unfold validateFmt
  rw [hrun]
  unfold vfinal
  dsimp only
  split_ifs <;> simp_all

/-- Witness for `end_of_scan_balance`: the scan of a balanced two-asterisk
template ends in an all-even, all-closed state, and validation accepts it. -/
theorem end_of_scan_balance_witness :
    validateFmt (bytes ("*a*")) = .ok () :=
  (end_of_scan_balance (bytes ("*a*"))
    { asterisk := 2, underscore := 0, backtick := 0, squareBracket := 0, paren := 0,
      tilde := 0, pipe := 0, inCode := false, inPre := false, prevChar := 42,
      prevWasEscapingBackslash := false } (by decide)).1.mpr (by decide)

/-- C1: invariant I1 is breached through the public construction interface.
Both two-byte templates (`a` followed by a live backslash, and an escaped
exclamation mark) pass the validator, so both are constructible with the
`markdown_string!` macro, and each payload satisfies I1 on its own; but
pushing the second onto the first yields the payload `a` `\` `\` `!`, in
which the first backslash escapes the second, leaving the exclamation mark
unescaped outside any code context. -/
theorem i1_breached_by_push_of_validated_templates :
    validateFmt (bytes ("a\\")) = .ok () ∧
    validateFmt (bytes ("\\!")) = .ok () ∧
    fromValidatedStringFuel 1 (bytes ("a\\")) =
      some { payload := bytes ("a\\"), truncated := false } ∧
    fromValidatedStringFuel 1 (bytes ("\\!")) =
      some { payload := bytes ("\\!"), truncated := false } ∧
    i1Ok (bytes ("a\\")) = true ∧
    i1Ok (bytes ("\\!")) = true ∧
    i1Ok ((MarkdownString.push { payload := bytes ("a\\"), truncated := false }
      { payload := bytes ("\\!"), truncated := false }).payload) = false := by
  decide

/-- The non-oversize branch of `from_validated_string`: any payload within the
ceiling is wrapped verbatim with the flag clear, for every fuel amount. -/
theorem fromValidatedStringFuel_small (fuel : Nat) (s : List Nat)
    (h : s.length ≤ TELEGRAM_MAX_MESSAGE_LENGTH) :
    fromValidatedStringFuel (fuel + 1) s = some { payload := s, truncated := false } := by
  simp only [fromValidatedStringFuel]
  rw [if_neg (by omega)]

/-- Pushing a fresh payload onto an empty `MarkdownString` keeps it exactly
when it fits together with the marker, and otherwise collapses to the bare
marker with the flag set. -/
theorem push_onto_empty (s : List Nat) :
    MarkdownString.push { payload := [], truncated := false }
        { payload := s, truncated := false } =
      if s.length + 6 ≤ 4096 then { payload := s, truncated := false }
      else { payload := TRUNCATION_MARKER, truncated := true } := by
  simp only [MarkdownString.push, TRUNCATION_MARKER_length, TELEGRAM_MAX_MESSAGE_LENGTH,
    List.length_nil, List.nil_append, Nat.zero_add]
  norm_num
  split_ifs <;> first | rfl | omega

/-- C6 (amended): `from_validated_string` agrees with pushing onto an empty
`MarkdownString` only for payloads of length at most 4090 (the ceiling minus
the marker length). -/
theorem from_validated_eq_push_on_empty_below_4090 (fuel : Nat) (s : List Nat)
    (h : s.length ≤ 4090) :
    fromValidatedStringFuel (fuel + 1) s =
      some (MarkdownString.push { payload := [], truncated := false }
        { payload := s, truncated := false }) := by
  rw [push_onto_empty, if_pos (by omega),
    fromValidatedStringFuel_small fuel s (by simp only [TELEGRAM_MAX_MESSAGE_LENGTH]; omega)]

/-- Witness for `from_validated_eq_push_on_empty_below_4090` at a two-byte
payload. -/
theorem from_validated_eq_push_on_empty_below_4090_witness :
    fromValidatedStringFuel 1 (bytes ("hi")) =
      some (MarkdownString.push { payload := [], truncated := false }
        { payload := bytes ("hi"), truncated := false }) :=
  from_validated_eq_push_on_empty_below_4090 0 (bytes ("hi")) (by decide)

theorem longA_length : longA.length = 4091 := by
  rw [longA, List.length_replicate]

/-- C6 (counterexample): at payload length 4091 the two construction paths
disagree — `from_validated_string` keeps the payload untruncated (4091 ≤ 4096)
while pushing the same payload onto an empty `MarkdownString` drops it and
yields the bare truncation marker with the flag set (4091 + 6 > 4096). -/
theorem from_validated_ne_push_on_empty_at_4091 :
    fromValidatedStringFuel 1 longA = some { payload := longA, truncated := false } ∧
    MarkdownString.push { payload := [], truncated := false }
        { payload := longA, truncated := false } =
      { payload := TRUNCATION_MARKER, truncated := true } ∧
    fromValidatedStringFuel 1 longA ≠
      some (MarkdownString.push { payload := [], truncated := false }
        { payload := longA, truncated := false }) := by
  have h1 : fromValidatedStringFuel 1 longA = some { payload := longA, truncated := false } :=
    fromValidatedStringFuel_small 0 longA
      (by simp only [TELEGRAM_MAX_MESSAGE_LENGTH, longA_length]; omega)
  have h2 : MarkdownString.push { payload := [], truncated := false }
      { payload := longA, truncated := false } =
      { payload := TRUNCATION_MARKER, truncated := true } := by
    rw [push_onto_empty, if_neg (by simp only [longA_length]; omega)]
  refine ⟨h1, h2, ?_⟩
  rw [h1, h2]
  intro hcontra
  exact absurd (congrArg MarkdownString.truncated (Option.some.inj hcontra)) (by decide)

/-- The external escaper leaves a run of plain letters `a` unchanged. -/
theorem teloxideEscape_replicate_a (n : Nat) :
    teloxideEscape (List.replicate n 97) = List.replicate n 97 := by
  induction n with
  | zero => rfl
  | succ n ih =>
    have h97 : mdSpecialByte 97 = false := by decide
    rw [List.replicate_succ]
    simp only [teloxideEscape, h97, if_false, List.singleton_append, ih, Bool.false_eq_true]

/-- C7 (amended): `escape` is untruncated, with payload exactly the escaped
form of the input, whenever the escaped form is at most 4090 bytes long
(the ceiling minus the marker length), for every fuel amount. -/
theorem escape_untruncated_below_4090 (fuel : Nat) (t : List Nat)
    (h : (teloxideEscape t).length ≤ 4090) :
    escapeFuel (fuel + 1) t = some { payload := teloxideEscape t, truncated := false } := by
  unfold escapeFuel
  rw [fromValidatedStringFuel_small fuel (teloxideEscape t)
    (by simp only [TELEGRAM_MAX_MESSAGE_LENGTH]; omega)]
  simp only [Option.map_some']
  rw [push_onto_empty, if_pos (by omega)]

/-- Witness for `escape_untruncated_below_4090`: escaping `Hi!` yields the
seven-byte escaped form untruncated. -/
theorem escape_untruncated_below_4090_witness :
    escapeFuel 1 (bytes ("Hi!")) =
      some { payload := teloxideEscape (bytes ("Hi!")), truncated := false } :=
  escape_untruncated_below_4090 0 (bytes ("Hi!")) (by decide)

/-- C7 (counterexample): for 4091 letters `a` the escaped form has length
4091 ≤ 4096, yet `escape` returns the bare truncation marker with the
truncated flag set — refuting the claim that escape is untruncated whenever
the escaped form is within the ceiling. -/
theorem escape_truncates_within_ceiling_at_4091 :
    (teloxideEscape longA).length ≤ 4096 ∧
    escapeFuel 1 longA = some { payload := TRUNCATION_MARKER, truncated := true } ∧
    TRUNCATION_MARKER ≠ teloxideEscape longA := by
  have he : teloxideEscape longA = longA := teloxideEscape_replicate_a 4091
  refine ⟨by rw [he, longA_length]; omega, ?_, ?_⟩
  · unfold escapeFuel
    rw [he, fromValidatedStringFuel_small 0 longA
      (by simp only [TELEGRAM_MAX_MESSAGE_LENGTH, longA_length]; omega)]
    simp only [Option.map_some']
    rw [push_onto_empty, if_neg (by rw [longA_length]; omega)]
  · rw [he]
    intro hcontra
    have := congrArg List.length hcontra
    rw [TRUNCATION_MARKER_length, longA_length] at this
    omega

theorem c10Input_length : c10Input.length = 4097 := by
  simp only [c10Input, List.length_append, List.length_replicate, List.length_cons]

/-- Byte position 3996 of the C10 input is a UTF-8 continuation byte, so it is
not a char boundary. -/
theorem c10Input_not_boundary : isCharBoundary c10Input 3996 = false := by
  have hget : c10Input.get? 3996 = some 169 := by
    rw [c10Input]
    rw [List.get?_eq_getElem?]
    rw [List.getElem?_append_right (by rw [List.length_replicate]; omega)]
    rw [List.length_replicate]
    rfl
  rw [isCharBoundary, if_neg (by omega), hget]
  decide

/-- C10: `from_validated_string` is not total — on the C10 input (length 4097
with a multi-byte character straddling byte 3996) the oversize branch slices
the string at a non-boundary and panics, for every fuel amount. -/
theorem from_validated_string_panics_on_split_char (fuel : Nat) :
    fromValidatedStringFuel (fuel + 1) c10Input = none := by
  have h100 : TELEGRAM_MAX_MESSAGE_LENGTH - 100 = 3996 := by decide
  simp only [fromValidatedStringFuel]
  rw [c10Input_length]
  rw [if_pos (by decide)]
  rw [h100, c10Input_not_boundary]
  simp

/-- Splitting at the first marker decomposes the string: the prefix is
marker-free and the string is prefix, marker pair, suffix. -/
theorem splitAtMarker_eq_some :
    ∀ (t p s : List Nat), splitAtMarker t = some (p, s) →
      t = p ++ 123 :: 125 :: s ∧ splitAtMarker p = none := by
  intro t
  induction t with
  | nil => intro p s h; simp [splitAtMarker] at h
  | cons c rest ih =>
    intro p s h
    by_cases hc : c = 123 ∧ rest.head? = some 125
    · rw [splitAtMarker, if_pos hc] at h
      simp only [Option.some.injEq, Prod.mk.injEq] at h
      obtain ⟨hp, hs⟩ := h
      obtain ⟨hc1, hc2⟩ := hc
      subst hc1
      cases rest with
      | nil => simp at hc2
      | cons x xs =>
        simp only [List.head?_cons, Option.some.injEq] at hc2
        subst hc2
        simp only [List.tail_cons] at hs
        subst hp
        subst hs
        exact ⟨by simp, rfl⟩
    · rw [splitAtMarker, if_neg hc] at h
      cases hsp : splitAtMarker rest with
      | none => rw [hsp] at h; simp at h
      | some pr =>
        obtain ⟨p1, s1⟩ := pr
        rw [hsp] at h
        simp only [Option.some.injEq, Prod.mk.injEq] at h
        obtain ⟨hp, hs⟩ := h
        obtain ⟨hrest_eq, hpn⟩ := ih p1 s1 hsp
        subst hp
        subst hs
        constructor
        · rw [hrest_eq]
          simp [List.cons_append]
        · have hcond : ¬(c = 123 ∧ p1.head? = some 125) := by
            intro hcond
            apply hc
            obtain ⟨hc1, hc2⟩ := hcond
            refine ⟨hc1, ?_⟩
            cases p1 with
            | nil => simp at hc2
            | cons y ys =>
              simp only [List.head?_cons, Option.some.injEq] at hc2
              subst hc2
              rw [hrest_eq]
              simp
          rw [splitAtMarker, if_neg hcond, hpn]

/-- Prepending a marker-free block (with no marker straddling the junction)
shifts the first marker position. -/
theorem splitAtMarker_append (u : List Nat) :
    ∀ q : List Nat, splitAtMarker q = none →
      ¬(q.getLast? = some 123 ∧ u.head? = some 125) →
      splitAtMarker (q ++ u) = (splitAtMarker u).map (fun pr => (q ++ pr.1, pr.2)) := by
  intro q
  induction q with
  | nil =>
    intro _ _
    cases h : splitAtMarker u with
    | none => simp [h]
    | some pr => obtain ⟨p, s⟩ := pr; simp [h]
  | cons c q1 ih =>
    intro hq hj
    by_cases hcond : c = 123 ∧ q1.head? = some 125
    · rw [splitAtMarker, if_pos hcond] at hq
      simp at hq
    · rw [splitAtMarker, if_neg hcond] at hq
      have hq1 : splitAtMarker q1 = none := by
        cases hsp : splitAtMarker q1 with
        | none => rfl
        | some pr => obtain ⟨p1, s1⟩ := pr; rw [hsp] at hq; simp at hq
      have hcond2 : ¬(c = 123 ∧ (q1 ++ u).head? = some 125) := by
        cases q1 with
        | nil =>
          intro hx
          exact hj ⟨by rw [List.getLast?_singleton]; exact congrArg some (hx.1), by
            simpa using hx.2⟩
        | cons d q2 =>
          intro hx
          apply hcond
          refine ⟨hx.1, ?_⟩
          simpa using hx.2
      have hj1 : ¬(q1.getLast? = some 123 ∧ u.head? = some 125) := by
        cases q1 with
        | nil => intro hx; simp at hx
        | cons d q2 =>
          intro hx
          apply hj
          refine ⟨?_, hx.2⟩
          rw [List.getLast?_cons_cons]
          exact hx.1
      rw [List.cons_append, splitAtMarker, if_neg hcond2, ih hq1 hj1]
      cases hu : splitAtMarker u with
      | none => simp
      | some pr => obtain ⟨p, s⟩ := pr; simp

/-- A marker-free template is returned unchanged, all bindings ignored. -/
theorem substituteLoop_of_no_marker (t : List Nat) (args : List (List Nat))
    (ht : splitAtMarker t = none) : substituteLoop t args = t := by
  induction args with
  | nil => rfl
  | cons a rest ih => simp only [substituteLoop, ht, ih]

/-- The substitution loop never writes into a marker-free prefix, provided
no argument starts with a closing brace (which could complete a marker at the
junction) and the junction itself holds no marker. -/
theorem substituteLoop_append (q : List Nat) (hq : splitAtMarker q = none) :
    ∀ (args : List (List Nat)) (u : List Nat),
      (∀ a ∈ args, a ≠ [] ∧ a.head? ≠ some 125) →
      ¬(q.getLast? = some 123 ∧ u.head? = some 125) →
      substituteLoop (q ++ u) args = q ++ substituteLoop u args := by
  intro args
  induction args with
  | nil => intro u _ _; rfl
  | cons a rest ih =>
    intro u hgood hj
    simp only [substituteLoop]
    rw [splitAtMarker_append u q hq hj]
    cases hu : splitAtMarker u with
    | none =>
      simp only [Option.map_none']
      exact ih u (fun b hb => hgood b (List.mem_cons_of_mem _ hb)) hj
    | some pr =>
      obtain ⟨p, s⟩ := pr
      simp only [Option.map_some']
      obtain ⟨hu_eq, hpn⟩ := splitAtMarker_eq_some u p s hu
      obtain ⟨hane, hahead⟩ := hgood a (List.mem_cons_self a rest)
      have hj1 : ¬(q.getLast? = some 123 ∧ (p ++ (a ++ s)).head? = some 125) := by
        cases p with
        | nil =>
          intro hx
          rw [List.nil_append, List.head?_append_of_ne_nil a hane] at hx
          exact hahead hx.2
        | cons x p2 =>
          intro hx
          apply hj
          refine ⟨hx.1, ?_⟩
          rw [hu_eq]
          simp only [List.cons_append, List.head?_cons] at hx ⊢
          exact hx.2
      simp only [List.append_assoc]
      exact ih (p ++ (a ++ s)) (fun b hb => hgood b (List.mem_cons_of_mem _ hb)) hj1

/-- C5 (amended): the loop that repeatedly replaces the first marker in the
evolving result coincides with giving the template's Nth marker the Nth
binding — markers beyond the bindings left unfilled, extra bindings ignored —
provided every rendered binding is nonempty, contains no marker, does not
begin with the closing brace and does not end with the opening brace (so that
no marker is created or destroyed by a splice). -/
theorem substituteLoop_eq_fillMarkersSpec (args : List (List Nat)) :
    ∀ t : List Nat,
      (∀ a ∈ args, a ≠ [] ∧ splitAtMarker a = none ∧
        a.head? ≠ some 125 ∧ a.getLast? ≠ some 123) →
      substituteLoop t args = fillMarkersSpec t args := by
  induction args with
  | nil => intro t _; rfl
  | cons a rest ih =>
    intro t hgood
    obtain ⟨hane, hamf, hahead, halast⟩ := hgood a (List.mem_cons_self a rest)
    have hrest : ∀ b ∈ rest, b ≠ [] ∧ splitAtMarker b = none ∧
        b.head? ≠ some 125 ∧ b.getLast? ≠ some 123 :=
      fun b hb => hgood b (List.mem_cons_of_mem _ hb)
    simp only [substituteLoop, fillMarkersSpec]
    cases hsplit : splitAtMarker t with
    | none => exact substituteLoop_of_no_marker t rest hsplit
    | some pr =>
      obtain ⟨p, s⟩ := pr
      dsimp only
      obtain ⟨ht_eq, hpn⟩ := splitAtMarker_eq_some t p s hsplit
      have hqmf : splitAtMarker (p ++ a) = none := by
        rw [splitAtMarker_append a p hpn (fun hx => hahead hx.2), hamf]
        rfl
      have hql : (p ++ a).getLast? ≠ some 123 := by
        rw [List.getLast?_append_of_ne_nil p hane]
        exact halast
      rw [substituteLoop_append (p ++ a) hqmf rest s
        (fun b hb => ⟨(hrest b hb).1, (hrest b hb).2.2.1⟩) (fun hx => hql hx.1)]
      rw [ih s hrest]

/-- Witness for `substituteLoop_eq_fillMarkersSpec`: one ordinary binding. -/
theorem substituteLoop_eq_fillMarkersSpec_witness :
    substituteLoop (bytes ("V: \x7b\x7d")) [bytes ("ab")] =
      fillMarkersSpec (bytes ("V: \x7b\x7d")) [bytes ("ab")] :=
  substituteLoop_eq_fillMarkersSpec [bytes ("ab")] (bytes ("V: \x7b\x7d")) (by decide)

/-- C5 (counterexample): with template `A`-marker-`B`-marker-`C` (validated)
and the bindings "marker pair" (itself a validated template, hence reachable
through the `@raw` policy) followed by `x`, the code replaces the first marker
with a marker pair and the second binding then lands inside that spliced
text, yielding `AxB`-marker-`C` — while the claim's positional contract
requires `A`-marker-`BxC` (second marker receives second binding).  The two
disagree. -/
theorem substitution_not_positional :
    validateFmt (bytes ("A\x7b\x7dB\x7b\x7dC")) = .ok () ∧
    validateFmt (bytes ("\x7b\x7d")) = .ok () ∧
    substituteLoop (bytes ("A\x7b\x7dB\x7b\x7dC")) [bytes ("\x7b\x7d"), bytes ("x")] =
      bytes ("AxB\x7b\x7dC") ∧
    fillMarkersSpec (bytes ("A\x7b\x7dB\x7b\x7dC")) [bytes ("\x7b\x7d"), bytes ("x")] =
      bytes ("A\x7b\x7dBxC") ∧
    substituteLoop (bytes ("A\x7b\x7dB\x7b\x7dC")) [bytes ("\x7b\x7d"), bytes ("x")] ≠
      fillMarkersSpec (bytes ("A\x7b\x7dB\x7b\x7dC")) [bytes ("\x7b\x7d"), bytes ("x")] := by
  decide


/-- Witness for `from_validated_string_panics_on_split_char` at the smallest
fuel amount. -/
theorem from_validated_string_panics_on_split_char_witness :
    fromValidatedStringFuel 1 c10Input = none :=
  from_validated_string_panics_on_split_char 0

end Telluride
